import Mathlib

/-!
Shallow embedding of `registrator.py` (KongServiceRegistrator), a Docker
service registrator for the Kong admin API (Python 2).

Modelling conventions:
* Python dicts are association lists `List (String × α)`; assignment
  `d[k] = v` is `pySet` (replace the first binding, append when absent),
  lookup `d[k]` is `pyGet` (`none` models a KeyError site), and the
  membership test `k in d` is `pyMem`.  Dict construction from a sequence
  of assignments makes the *last* assignment win, which `pySet` preserves.
* HTTP calls go through a `Remote` oracle giving each call's status code
  (and, for target creation, the decoded response body).  Log statements
  (`log.info` / `log.error` / `log.warn`) are inert — with one exception
  forced by Python's eager argument evaluation: the log calls in
  `get_upstream_targets` (lines 417-420) and `get_api_definitions` (lines
  370-374, 377-380, 386-389) pass `container['ID']`, and subscripting a
  docker-py `Container` model object raises TypeError before anything is
  logged, so those "warn/skip" branches actually raise.
* Python exceptions (KeyError on a missing dict key, TypeError on
  `list[str] = v`, ValueError from `json.loads` / `int`) are `Except PyErr`.
* Python `set` values are deduplicated lists; set iteration order is
  unspecified in Python, the model fixes first-occurrence order.  None of
  the verified statements depend on that order.
* Network traffic that the claims count (POST target, DELETE target) is
  recorded in a `Trace`.
-/

/-- Python exceptions that the embedded code can raise. -/
inductive PyErr where
  | keyError : PyErr
  | typeError : PyErr
  | valueError : PyErr
  | indexError : PyErr
deriving DecidableEq

/-- One element of a Kong target collection, as cached in `self.targets`:
the fields `target` (address `host:port`), `weight` and `id` that
`registrator.py` reads from the decoded JSON objects. -/
structure Target where
  target : String
  weight : Int
  id : String
deriving DecidableEq

/-- Python dict lookup `d[k]`, returning `none` where Python raises KeyError. -/
def pyGet (m : List (String × α)) (k : String) : Option α :=
  match m with
  | [] => none
  | (q, v) :: rest => if q == k then some v else pyGet rest k

/-- Python dict assignment `d[k] = v`: replace the binding when the key is
present, append it otherwise. -/
def pySet (m : List (String × α)) (k : String) (v : α) : List (String × α) :=
  match m with
  | [] => [(k, v)]
  | (q, w) :: rest => if q == k then (k, v) :: rest else (q, w) :: pySet rest k v

/-- Python membership test `k in d` for a dict. -/
def pyMem (m : List (String × α)) (k : String) : Bool :=
  (pyGet m k).isSome

/-- Python `dict.update(b)`: assign every binding of `b` into `a` in order. -/
def pyUpdate (a b : List (String × α)) : List (String × α) :=
  b.foldl (fun acc p => pySet acc p.1 p.2) a

/-- The mutable object state of `KongServiceRegistrator` that the
reconciliation operations read and write: `self.upstreams` (after `load`,
a plain Python *list* of names — `load_upstreams` ends with a `filter` call,
which in Python 2 returns a list) and `self.targets` (dict from upstream
name to the list of cached target objects). -/
structure EngineState where
  upstreams : List String
  targets : List (String × List Target)
deriving DecidableEq

/-- Responses of the Kong admin API, one field per call site of
`registrator.py`.  `postTargetBody` is the decoded JSON body answering a
successful `POST /upstreams/.../targets`. -/
structure Remote where
  deleteStatus : String → String → Nat
  postTargetStatus : String → String → Nat
  postTargetBody : String → String → Target
  postUpstreamStatus : String → Nat
  getUpstreamStatus : String → Nat

/-- The remote calls that the claims count: target creations
(`POST /upstreams/n/targets`, recorded as `(n, target)`) and target
deletions (`DELETE /upstreams/n/targets/id`, recorded as `(n, id)`). -/
structure Trace where
  posts : List (String × String)
  deletes : List (String × String)
deriving DecidableEq

/-- The empty trace. -/
def Trace.nil : Trace := ⟨[], []⟩

/-- Trace concatenation. -/
def Trace.app (a b : Trace) : Trace := ⟨a.posts ++ b.posts, a.deletes ++ b.deletes⟩

/-- Read `self.targets[name]`. -/
def getT (s : EngineState) (name : String) : Option (List Target) :=
  pyGet s.targets name

/-- Write `self.targets[name] = l`. -/
def setT (s : EngineState) (name : String) (l : List Target) : EngineState :=
  { s with targets := pySet s.targets name l }

/-- Sequence a Python `for`-loop whose body can raise and performs remote
calls: run `f` on each element in order, threading the state and
concatenating the traces; an exception aborts the loop. -/
def foldE (f : α → EngineState → Except PyErr (EngineState × Trace)) :
    List α → EngineState → Except PyErr (EngineState × Trace)
  | [], s => .ok (s, Trace.nil)
  | a :: l, s =>
    match f a s with
    | .error e => .error e
    | .ok (s', tr) =>
      match foldE f l s' with
      | .error e => .error e
      | .ok (s'', tr') => .ok (s'', tr.app tr')

/-- Lines 221-235, `remove_target`: issue the DELETE (its status is only
logged), then unconditionally rebind `self.targets[name]` to the cached
list with `target_id` filtered out.  The read `self.targets[name]` raises
KeyError when the key is absent. -/
def remove_target (rm : Remote) (name target target_id : String)
    (s : EngineState) : Except PyErr (EngineState × Trace) :=
  let _status := rm.deleteStatus name target_id
  let _ := target
  match getT s name with
  | none => .error .keyError
  | some ts =>
    .ok (setT s name (ts.filter (fun t => !(t.id == target_id))),
         ⟨[], [(name, target_id)]⟩)

/-- Lines 216-217 of `remove_targets`: the set of ids of cached entries of
the upstream whose address equals `target` and whose weight is positive
(`t['weight'] > 0`).  Python builds a `set`; the model deduplicates. -/
def removeTargetsIds (ts : List Target) (target : String) : List String :=
  ((ts.filter (fun t => t.target == target && decide (0 < t.weight))).map
    (fun t => t.id)).dedup

/-- Lines 212-219, `remove_targets`: compute the matching ids from the
cached list (KeyError when the upstream is not cached), then call
`remove_target` on each. -/
def remove_targets (rm : Remote) (upstream target : String)
    (s : EngineState) : Except PyErr (EngineState × Trace) :=
  match getT s upstream with
  | none => .error .keyError
  | some ts =>
    foldE (fun tid s' => remove_target rm upstream target tid s')
      (removeTargetsIds ts target) s

/-- Lines 162-183, `add_upstream`: when `name` is not in `self.upstreams`,
POST the upstream; a 409 is resolved by a GET.  On a 200/201 the source
executes `self.upstreams[name] = r.json()` — but after `load_upstreams`,
`self.upstreams` is a Python *list*, so indexing it with a string raises
TypeError.  Any other status is only logged. -/
def add_upstream (rm : Remote) (name : String) (s : EngineState) :
    Except PyErr (EngineState × Trace) :=
  if s.upstreams.elem name then .ok (s, Trace.nil)
  else
    let st := rm.postUpstreamStatus name
    let st2 := if st == 409 then rm.getUpstreamStatus name else st
    if st2 == 200 || st2 == 201 then .error .typeError
    else .ok (s, Trace.nil)

/-- Lines 185-210, `add_target`: ensure the upstream exists, read
`self.targets[name]` (KeyError when absent), and POST the target unless a
cached entry with this address and non-zero weight exists; on a 200/201 the
response body is appended to the cache, otherwise the failure is logged. -/
def add_target (rm : Remote) (name target : String) (s : EngineState) :
    Except PyErr (EngineState × Trace) :=
  match add_upstream rm name s with
  | .error e => .error e
  | .ok (s1, tr1) =>
    match getT s1 name with
    | none => .error .keyError
    | some ts =>
      let existing := ts.filter (fun t => t.target == target && !(t.weight == 0))
      if existing.length == 0 then
        let tr2 := tr1.app ⟨[(name, target)], []⟩
        let st := rm.postTargetStatus name target
        if st == 200 || st == 201 then
          .ok (setT s1 name (ts ++ [rm.postTargetBody name target]), tr2)
        else .ok (s1, tr2)
      else .ok (s1, tr1)

/-- Line 84-85 of `sync_upstream`: the address set Kong is believed to hold
for the upstream — the addresses of *all* cached entries, regardless of
weight — or the empty set when the upstream is not cached. -/
def syncInKong (o : Option (List Target)) : List String :=
  match o with
  | some ts => (ts.map (fun t => t.target)).dedup
  | none => []

/-- Line 86 of `sync_upstream`: `to_delete = in_kong - live`. -/
def syncToDelete (o : Option (List Target)) (tlist : List String) : List String :=
  (syncInKong o).filter (fun a => !(tlist.dedup.elem a))

/-- Line 87 of `sync_upstream`: `to_add = live - in_kong`. -/
def syncToAdd (o : Option (List Target)) (tlist : List String) : List String :=
  tlist.dedup.filter (fun a => !((syncInKong o).elem a))

/-- Lines 79-91, `sync_upstream`: compute the two set differences against
the cached observed state, then remove every `to_delete` address and add
every `to_add` address. -/
def sync_upstream (rm : Remote) (upstream : String) (tlist : List String)
    (s : EngineState) : Except PyErr (EngineState × Trace) :=
  let to_delete := syncToDelete (getT s upstream) tlist
  let to_add := syncToAdd (getT s upstream) tlist
  match foldE (fun a s' => remove_targets rm upstream a s') to_delete s with
  | .error e => .error e
  | .ok (s1, tr1) =>
    match foldE (fun a s' => add_target rm upstream a s') to_add s1 with
    | .error e => .error e
    | .ok (s2, tr2) => .ok (s2, tr1.app tr2)

/-- Lines 470-476, `remove_all`: for every cached upstream, for every entry
of the target list the loop entered with (the list object is iterated even
though `remove_target` rebinds the dict value), call `remove_target` with
that entry's address and id. -/
def remove_all (rm : Remote) (s : EngineState) :
    Except PyErr (EngineState × Trace) :=
  foldE (fun (pr : String × Target) s' =>
      remove_target rm pr.1 pr.2.target pr.2.id s')
    (s.targets.flatMap (fun pt => pt.2.map (fun t => (pt.1, t))))
    s

/-- Configuration passed to the constructor: `self.hostname` and
`self.dns_name`. -/
structure Config where
  hostname : String
  dns_name : String

/-- Whether `s` ends with `suffix` (`str.endswith`), over the character
lists so that concrete instances evaluate. -/
def strEndsWith (s suffix : String) : Bool :=
  suffix.data.isSuffixOf s.data

/-- The part of `s` before the first occurrence of `c` — Python
`s.split(c)[0]` (the whole string when `c` does not occur). -/
def strUptoChar (s : String) (c : Char) : String :=
  String.mk (s.data.takeWhile (fun d => !(d == c)))

/-- Line 246, `e.split('=', 1)`: split an environment entry at its first
equals sign.  Docker environment entries always contain one; on an entry
without it Python would raise IndexError at `parameter[1]`, the model
returns an empty value. -/
def pySplitEq (s : String) : String × String :=
  let k := s.data.takeWhile (fun c => !(c == '='))
  (String.mk k, String.mk (s.data.drop (k.length + 1)))

/-- The container metadata that `registrator.py` reads: the raw
`Config.Env` list of `KEY=VALUE` strings and the `NetworkSettings.Ports`
dict, each port key (such as `8080/tcp`) mapped to `none` when unpublished
(`v is None`) or to the first binding's `HostPort`. -/
structure Container where
  env : List String
  ports : List (String × Option String)

/-- Lines 237-251, `get_environment_of_container`: build the environment
dict from the raw entries (a later duplicate key overwrites an earlier
one, which `pySet` preserves). -/
def get_environment_of_container (c : Container) : List (String × String) :=
  c.env.foldl (fun acc e => let p := pySplitEq e; pySet acc p.1 p.2) []

/-- Lines 288-294, `get_all_exposed_tcp_ports`: the ports whose key ends in
`/tcp` and whose value is not `None`, each with its first binding's
`HostPort`. -/
def get_all_exposed_tcp_ports (c : Container) : List (String × String) :=
  c.ports.filterMap (fun p =>
    if strEndsWith p.1 "/tcp" then p.2.map (fun hp => (p.1, hp)) else none)

/-- Lines 296-301, `get_all_tcp_ports`: all ports whose key ends in `/tcp`,
published or not. -/
def get_all_tcp_ports (c : Container) : List (String × Option String) :=
  c.ports.filter (fun p => strEndsWith p.1 "/tcp")

/-- The port-specific key `<prefix>_<port.split('/')[0]>_<postfix_>` of line
314. -/
def portKey (prefix_ postfix_ port : String) : String :=
  prefix_ ++ "_" ++ strUptoChar port '/' ++ "_" ++ postfix_

/-- The port-agnostic key `<prefix>_<postfix_>` of line 313. -/
def fullKey (prefix_ postfix_ : String) : String :=
  prefix_ ++ "_" ++ postfix_

/-- Lines 303-323, `get_environment_value_for_port`: the port-specific key
wins; otherwise the port-agnostic key applies only when the container has
exactly one TCP port; otherwise `None`. -/
def get_environment_value_for_port (c : Container)
    (prefix_ postfix_ port : String) : Option String :=
  let env := get_environment_of_container c
  let tcp_ports := get_all_tcp_ports c
  match pyGet env (portKey prefix_ postfix_ port) with
  | some v => some v
  | none =>
    if pyMem env (fullKey prefix_ postfix_) && tcp_ports.length == 1 then
      pyGet env (fullKey prefix_ postfix_)
    else none

/-- Lines 325-330, `get_service_name_for_port`. -/
def get_service_name_for_port (c : Container) (port : String) : Option String :=
  get_environment_value_for_port c "SERVICE" "NAME" port

/-- Lines 332-337, `get_kong_api_for_port`. -/
def get_kong_api_for_port (c : Container) (port : String) : Option String :=
  get_environment_value_for_port c "KONG" "API" port

/-- Sequence a Python `for`-loop over a plain accumulator whose body can
raise: run `f` on each element in order; an exception aborts the loop. -/
def foldlE (f : β → α → Except PyErr β) : List α → β → Except PyErr β
  | [], b => .ok b
  | a :: l, b =>
    match f b a with
    | .error e => .error e
    | .ok b' => foldlE f l b'

/-- The loop body of `get_upstream_targets` (lines 407-420): a port with a
service name contributes `hostname:hostPort` under `service_name ++
dns_name`.  When that pool name is already present, the source reaches
`log.warn(..., port, container['ID'])` — and evaluating the argument
`container['ID']` subscripts a docker-py `Container` model object, which
raises TypeError, so the duplicate branch raises instead of warning. -/
def gutStep (cfg : Config) (c : Container)
    (result : List (String × String)) (pr : String × String) :
    Except PyErr (List (String × String)) :=
  match get_service_name_for_port c pr.1 with
  | none => .ok result
  | some service_name =>
    if pyMem result (service_name ++ cfg.dns_name) then .error .typeError
    else .ok (pySet result (service_name ++ cfg.dns_name)
      (cfg.hostname ++ ":" ++ pr.2))

/-- Lines 393-422, `get_upstream_targets`: fold the loop body over the
exposed TCP ports, starting from an empty dict; a duplicate pool name
raises TypeError out of the loop. -/
def get_upstream_targets (cfg : Config) (c : Container) :
    Except PyErr (List (String × String)) :=
  foldlE (gutStep cfg c) (get_all_exposed_tcp_ports c) []

/-- A route/API definition document, modelled as a flat JSON object whose
field values are strings (the shape `registrator.py` manipulates: `name`,
`upstream_url`, `uris`, ...). -/
def ApiDoc := List (String × String)

/-- Two documents are equal as Python dicts: same keys with the same
values. -/
def docEq (a b : ApiDoc) : Bool :=
  ((a.map Prod.fst) ++ (b.map Prod.fst)).dedup.all
    (fun k => pyGet a k == pyGet b k)

/-- The keys the two documents share. -/
def docCommonKeys (a b : ApiDoc) : List String :=
  (a.map Prod.fst).dedup.filter (fun k => pyMem b k)

/-- Model of lines 264-266: `diff(current, definition, syntax='explicit')`
followed by the source's test
`'$update' in differences and len(differences['$update']) > 0`.
jsondiff's explicit syntax on two objects emits `{}` when they are equal
(similarity 1) and the plain document `definition` itself when they share
no key (similarity 0); otherwise it emits an object whose insert, update
and delete entries are keyed by jsondiff `Symbol` *objects*, and since the
call passes no `marshal`/`dump` option those keys are never equal to the
string `'$update'` the source tests for.  The membership test is therefore
true only in the similarity-0 case, and only when the desired document
itself carries a literal `'$update'` field of positive length; for every
other pair of documents — changed common fields included — the test is
false. -/
def jsondiffWantsUpdate (current definition : ApiDoc) : Bool :=
  if docEq current definition then false
  else if (docCommonKeys current definition).isEmpty then
    match pyGet definition "$update" with
    | some v => decide (0 < v.length)
    | none => false
  else false

/-- The loop body of `sync_apis` (lines 258-286): a desired route that
exists remotely is PATCHed only when `jsondiffWantsUpdate` holds; a route
that does not exist remotely is created with a PUT. -/
def syncApisStep (remoteApis : List (String × ApiDoc))
    (acc : List String × List String) (nd : String × ApiDoc) :
    List String × List String :=
  match pyGet remoteApis nd.1 with
  | some current =>
    if jsondiffWantsUpdate current nd.2 then (acc.1 ++ [nd.1], acc.2)
    else acc
  | none => (acc.1, acc.2 ++ [nd.1])

/-- Lines 253-286, `sync_apis`: after reloading the remote route collection
(`remoteApis`, pagination abstracted into the resulting dict), fold the
loop body over the desired routes.  The result is the pair (PATCHed names,
PUT names); response statuses only affect the in-memory `self.apis` cache,
which no later decision in this pass reads, so the model returns the
calls. -/
def sync_apis (remoteApis : List (String × ApiDoc))
    (apis : List (String × ApiDoc)) : List String × List String :=
  apis.foldl (syncApisStep remoteApis) ([], [])

/-- Line 55 of the constructor: `self.below_v_0_11 = False`.  This is the
only write to the flag that ever executes: the one other assignment is in
`get_kong_version` (line 76), which no code path calls. -/
def initBelowV011 : Bool := false

/-- Lines 138-141 of `load_targets`: the URL of the targets listing,
gated on `self.below_v_0_11`. -/
def loadTargetsUrl (below_v_0_11 : Bool) (admin_url name : String) : String :=
  if below_v_0_11 then admin_url ++ "/upstreams/" ++ name ++ "/targets/active"
  else admin_url ++ "/upstreams/" ++ name ++ "/targets"

/-- Python `int(c)` on a single-character string: its digit value, or a
ValueError. -/
def pyIntChar (c : Char) : Except PyErr Int :=
  if c.isDigit then .ok (Int.ofNat (c.toNat - 48)) else .error .valueError

/-- Line 75: `[int(n) for n in v]` — iterating a Python *string* yields its
characters, so each character of the version string is passed to `int`. -/
def parseVersionChars (v : String) : Except PyErr (List Int) :=
  v.toList.mapM pyIntChar

/-- Lines 62-77, `get_kong_version`: `versionField` is the `version` entry
of the admin-endpoint JSON (already `none` when the GET failed or the field
is missing, in which case the default `'0.11.0'` applies).  The version
list is built character by character (line 75) and then indexed at 0 and 1
(lines 76-77); the result is `(kong_version, below_v_0_11)`. -/
def get_kong_version (versionField : Option String) :
    Except PyErr (List Int × Bool) :=
  let v := versionField.getD "0.11.0"
  match parseVersionChars v with
  | .error e => .error e
  | .ok kv =>
    match kv.get? 0, kv.get? 1 with
    | some k0, some k1 => .ok (kv, k0 == 0 && k1 < 11)
    | _, _ => .error .indexError

/-- One line of the Docker event stream after `json.loads`: either the
decoded record's `Type`, `status` and `id` fields, or a line that is not
valid JSON (`json.loads` raises ValueError). -/
inductive DockerLine where
  | malformed : DockerLine
  | ev (type_ status id : String) : DockerLine

/-- The external world of the daemon: the Kong oracle, Docker lookup by
container id (`none` models `docker.errors.NotFound`), the running
container list, JSON parsing of `KONG_API` values (`none` models
ValueError), and the remote route collection that `load_apis` fetches. -/
structure World where
  rm : Remote
  dockerGet : String → Option Container
  dockerList : List Container
  parseJson : String → Option ApiDoc
  remoteApis : List (String × ApiDoc)

/-- The loop body of `get_api_definitions` (lines 354-389).  The three
"reported error" branches of the source — a `KONG_API` value that fails to
parse (caught ValueError, line 370), a definition still missing `name`
(line 377) and a duplicate name (line 386) — each call `log.error` with
the argument `container['ID']`; subscripting the docker-py `Container`
model raises TypeError, so those branches raise instead of skipping the
port. -/
def gadStep (w : World) (cfg : Config) (c : Container)
    (result : List (String × ApiDoc)) (pr : String × String) :
    Except PyErr (List (String × ApiDoc)) :=
  match get_kong_api_for_port c pr.1 with
  | none => .ok result
  | some raw =>
    match w.parseJson raw with
    | none => .error .typeError
    | some doc0 =>
      let service_name := get_service_name_for_port c pr.1
      let doc1 :=
        match service_name with
        | some sn =>
          if pyMem doc0 "upstream_url" then doc0
          else pySet doc0 "upstream_url" ("http://" ++ sn ++ cfg.dns_name)
        | none => doc0
      let doc2 :=
        match service_name with
        | some sn =>
          if pyMem doc1 "name" then doc1 else pySet doc1 "name" sn
        | none => doc1
      match pyGet doc2 "name" with
      | none => .error .typeError
      | some nm =>
        if pyMem result nm then .error .typeError
        else .ok (pySet result nm doc2)

/-- Lines 339-391, `get_api_definitions`: fold the loop body over the
exposed TCP ports; every error branch raises TypeError out of the loop
(see `gadStep`). -/
def get_api_definitions (w : World) (cfg : Config) (c : Container) :
    Except PyErr (List (String × ApiDoc)) :=
  foldlE (gadStep w cfg c) (get_all_exposed_tcp_ports c) []

/-- Lines 431-446, `container_started`: look the container up (a NotFound
is caught and only logged), add a target for every extracted pool
contribution, then synchronise the container's route definitions.  Any
exception other than NotFound — including the TypeErrors raised by the
extraction's duplicate and error branches — propagates. -/
def container_started (w : World) (cfg : Config) (container_id : String)
    (s : EngineState) : Except PyErr EngineState :=
  match w.dockerGet container_id with
  | none => .ok s
  | some c =>
    match get_upstream_targets cfg c with
    | .error e => .error e
    | .ok tmap =>
      match foldE (fun (pr : String × String) s' =>
          add_target w.rm pr.1 pr.2 s') tmap s with
      | .error e => .error e
      | .ok (s1, _) =>
        match get_api_definitions w cfg c with
        | .error e => .error e
        | .ok apis =>
          let _ := sync_apis w.remoteApis apis
          .ok s1

/-- Helper for `sync` (line 461): `targets[upstream].append(t)`, creating
the key when missing (lines 459-460 guard it explicitly). -/
def dictAppend (m : List (String × List String)) (k v : String) :
    List (String × List String) :=
  match m with
  | [] => [(k, [v])]
  | (q, l) :: rest =>
    if q == k then (q, l ++ [v]) :: rest else (q, l) :: dictAppend rest k v

/-- Lines 448-468, `sync`: start from an empty desired list for every
cached upstream, aggregate every running container's contributions and
route definitions in one pass over the container list (an extraction error
aborts the pass), then `sync_upstream` each pool and `sync_apis` the
merged routes. -/
def sync (w : World) (cfg : Config) (s : EngineState) :
    Except PyErr EngineState :=
  let base : List (String × List String) := s.targets.map (fun pt => (pt.1, []))
  match foldlE
      (fun (acc : List (String × List String) × List (String × ApiDoc)) c =>
        match get_upstream_targets cfg c with
        | .error e => .error e
        | .ok ct =>
          match get_api_definitions w cfg c with
          | .error e => .error e
          | .ok ca =>
            .ok (ct.foldl (fun acc2 pr => dictAppend acc2 pr.1 pr.2) acc.1,
                 pyUpdate acc.2 ca))
      w.dockerList (base, []) with
  | .error e => .error e
  | .ok (tmap, apis) =>
    match foldE (fun (pt : String × List String) s' =>
        sync_upstream w.rm pt.1 pt.2 s') tmap s with
    | .error e => .error e
    | .ok (s1, _) =>
      let _ := sync_apis w.remoteApis apis
      .ok s1

/-- Lines 424-429, `container_died`: a full resync. -/
def container_died (w : World) (cfg : Config) (s : EngineState) :
    Except PyErr EngineState :=
  sync w cfg s

/-- Lines 478-494, `process_events`: read each event line in order; a line
that fails to parse raises ValueError out of the loop; a `container start`
event runs `container_started` (whose uncaught exceptions also propagate);
a `container die` event runs a full resync; every other record is
skipped. -/
def process_events (w : World) (cfg : Config) (s : EngineState) :
    List DockerLine → Except PyErr EngineState
  | [] => .ok s
  | .malformed :: _ => .error .valueError
  | .ev type_ status id :: rest =>
    if type_ == "container" then
      if status == "start" then
        match container_started w cfg id s with
        | .error e => .error e
        | .ok s1 => process_events w cfg s1 rest
      else if status == "die" then
        match container_died w cfg s with
        | .error e => .error e
        | .ok s1 => process_events w cfg s1 rest
      else process_events w cfg s rest
    else process_events w cfg s rest

/-- The DELETE calls that `remove_all` must issue: one per cached entry,
addressed by pool name and the entry's remote id. -/
def removeAllCalls (s : EngineState) : List (String × String) :=
  s.targets.flatMap (fun pt => pt.2.map (fun t => (pt.1, t.id)))

/-- A remote on which every call succeeds: DELETEs answer 204, creations
answer 201 and echo the posted address with a fresh id and default
weight. -/
def oracleOk : Remote :=
  ⟨fun _ _ => 204, fun _ _ => 201, fun _ a => ⟨a, 100, "fresh"⟩,
   fun _ => 201, fun _ => 200⟩

theorem pyGet_pySet_self (m : List (String × α)) (k : String) (v : α) :
    pyGet (pySet m k v) k = some v := by
  induction m with
  | nil => simp [pySet, pyGet]
  | cons p rest ih =>
    obtain ⟨q, w⟩ := p
    by_cases h : q == k
    · simp [pySet, pyGet, h]
    · simp only [pySet, h, Bool.false_eq_true, if_false, pyGet, ih]

theorem pyGet_pySet_ne (m : List (String × α)) (k k' : String) (v : α)
    (h : k ≠ k') : pyGet (pySet m k v) k' = pyGet m k' := by
  induction m with
  | nil => simp [pySet, pyGet, h]
  | cons p rest ih =>
    obtain ⟨q, w⟩ := p
    by_cases hq : q == k
    · have hqk : q = k := by simpa using hq
      subst hqk
      simp [pySet, pyGet, h, hq]
    · simp only [pySet, hq, Bool.false_eq_true, if_false, pyGet, ih]

theorem pyGet_isSome_pySet (m : List (String × α)) (k q : String) (v : α)
    (h : (pyGet m q).isSome) : (pyGet (pySet m k v) q).isSome := by
  by_cases hk : k = q
  · subst hk; simp [pyGet_pySet_self]
  · rw [pyGet_pySet_ne m k q v hk]; exact h

theorem pyGet_isSome_of_mem (m : List (String × α)) (k : String) (v : α)
    (h : (k, v) ∈ m) : (pyGet m k).isSome := by
  induction m with
  | nil => cases h
  | cons p rest ih =>
    obtain ⟨q, w⟩ := p
    by_cases hq : q == k
    · simp [pyGet, hq]
    · rcases List.mem_cons.1 h with h1 | h1
      · cases h1; simp at hq
      · simp only [pyGet, hq, Bool.false_eq_true, if_false]
        exact ih h1

theorem pyGet_none_iff (m : List (String × α)) (k : String) :
    pyGet m k = none ↔ k ∉ m.map Prod.fst := by
  induction m with
  | nil => simp [pyGet]
  | cons p rest ih =>
    obtain ⟨q, w⟩ := p
    by_cases hq : q == k
    · have : q = k := by simpa using hq
      subst this
      simp [pyGet, hq]
    · have hne : ¬q = k := by simpa using hq
      simp only [pyGet, hq, Bool.false_eq_true, if_false, List.map_cons,
        List.mem_cons]
      rw [ih]
      constructor
      · intro h hk
        rcases hk with hk | hk
        · exact hne hk.symm
        · exact h hk
      · intro h hk
        exact h (Or.inr hk)

theorem pyGet_mem_of_eq_some (m : List (String × α)) (k : String) (v : α)
    (h : pyGet m k = some v) : (k, v) ∈ m := by
  induction m with
  | nil => simp [pyGet] at h
  | cons p rest ih =>
    obtain ⟨q, w⟩ := p
    by_cases hq : q == k
    · have hqk : q = k := by simpa using hq
      subst hqk
      simp only [pyGet, beq_self_eq_true, if_true, Option.some.injEq] at h
      subst h; exact List.mem_cons_self _ _
    · simp only [pyGet, hq, Bool.false_eq_true, if_false] at h
      exact List.mem_cons_of_mem _ (ih h)

theorem pySet_of_not_mem (m : List (String × α)) (k : String) (v : α)
    (h : pyGet m k = none) : pySet m k v = m ++ [(k, v)] := by
  induction m with
  | nil => simp [pySet]
  | cons p rest ih =>
    obtain ⟨q, w⟩ := p
    by_cases hq : q == k
    · simp [pyGet, hq] at h
    · simp only [pyGet, hq, Bool.false_eq_true, if_false] at h
      simp [pySet, hq, ih h]

theorem pyGet_append_left (m m' : List (String × α)) (k : String)
    (h : (pyGet m k).isSome) : pyGet (m ++ m') k = pyGet m k := by
  induction m with
  | nil => simp [pyGet] at h
  | cons p rest ih =>
    obtain ⟨q, w⟩ := p
    by_cases hq : q == k
    · simp [pyGet, hq]
    · simp only [pyGet, hq, Bool.false_eq_true, if_false] at h ⊢
      exact ih h

theorem pyGet_append_right (m m' : List (String × α)) (k : String)
    (h : pyGet m k = none) : pyGet (m ++ m') k = pyGet m' k := by
  induction m with
  | nil => simp [pyGet]
  | cons p rest ih =>
    obtain ⟨q, w⟩ := p
    by_cases hq : q == k
    · simp [pyGet, hq] at h
    · simp only [pyGet, hq, Bool.false_eq_true, if_false] at h ⊢
      exact ih h

theorem Trace.nil_app (tr : Trace) : Trace.app Trace.nil tr = tr := rfl

theorem Trace.app_nil (tr : Trace) : Trace.app tr Trace.nil = tr := by
  simp [Trace.app, Trace.nil]

theorem getT_setT_self (s : EngineState) (p : String) (l : List Target) :
    getT (setT s p l) p = some l := pyGet_pySet_self _ _ _

theorem getT_setT_ne (s : EngineState) (p q : String) (l : List Target)
    (h : p ≠ q) : getT (setT s p l) q = getT s q := pyGet_pySet_ne _ _ _ _ h

theorem setT_upstreams (s : EngineState) (p : String) (l : List Target) :
    (setT s p l).upstreams = s.upstreams := rfl

theorem getT_isSome_setT (s : EngineState) (p q : String) (l : List Target)
    (h : (getT s q).isSome) : (getT (setT s p l) q).isSome :=
  pyGet_isSome_pySet _ _ _ _ h

theorem remove_target_run (rm : Remote) (name target tid : String)
    (s : EngineState) (ts : List Target) (hts : getT s name = some ts) :
    remove_target rm name target tid s =
      .ok (setT s name (ts.filter (fun t => !(t.id == tid))),
           ⟨[], [(name, tid)]⟩) := by
  simp [remove_target, hts]

theorem add_target_error_of_unknown_pool (rm : Remote) (name target : String)
    (s : EngineState) (hup : s.upstreams.elem name = false)
    (hts : getT s name = none) :
    ∃ e, add_target rm name target s = .error e := by
  unfold add_target add_upstream
  rw [hup]
  simp only [Bool.false_eq_true, if_false]
  by_cases h : ((if rm.postUpstreamStatus name == 409 then
      rm.getUpstreamStatus name else rm.postUpstreamStatus name) == 200 ||
      (if rm.postUpstreamStatus name == 409 then
      rm.getUpstreamStatus name else rm.postUpstreamStatus name) == 201)
  · rw [if_pos h]
    exact ⟨.typeError, rfl⟩
  · rw [if_neg h]
    simp only [hts]
    exact ⟨.keyError, rfl⟩

/-- C10: for a pool name absent from the observed-state cache populated at
startup (so also absent from the `upstreams` name list, since `load`
populates `targets` exactly for those names), `add_target` is not total:
when the pool-creation POST succeeds, recording the new pool indexes the
upstream cache — a list of names after startup filtering — with a string
and raises TypeError; when it fails, the unguarded read
`self.targets[name]` raises KeyError.  Either way the call ends in an
unhandled error instead of completing the create-pool-then-append-target
sequence. -/
theorem add_target_unknown_pool_errors (rm : Remote) (name target : String)
    (s : EngineState) (hup : s.upstreams.elem name = false)
    (hts : getT s name = none) :
    ∃ e, add_target rm name target s = .error e :=
  add_target_error_of_unknown_pool rm name target s hup hts

/-- Witness for C10 at a concrete state whose cache is empty. -/
theorem add_target_unknown_pool_errors_witness :
    (EngineState.mk [] []).upstreams.elem "foo.svc" = false ∧
    getT (EngineState.mk [] []) "foo.svc" = none ∧
    ∃ e, add_target oracleOk "foo.svc" "h1:8080" (EngineState.mk [] []) =
      .error e :=
  ⟨rfl, rfl,
   add_target_unknown_pool_errors oracleOk "foo.svc" "h1:8080"
     (EngineState.mk [] []) rfl rfl⟩

/-- C3 counterexample: with one cached entry `t1` the DELETE answers 500 —
a failure — yet `remove_target` still drops the id from the cached state
(the resulting cache for the pool is empty), contradicting the claim that
on a failed DELETE the cached state for the pool is left unchanged. -/
theorem remove_target_failed_delete_drops_cex :
    remove_target
      ⟨fun _ _ => 500, fun _ _ => 201, fun _ a => ⟨a, 100, "i"⟩,
       fun _ => 201, fun _ => 200⟩
      "pool" "h:1" "t1"
      ⟨["pool"], [("pool", [⟨"h:1", 1, "t1"⟩])]⟩ =
    .ok (⟨["pool"], [("pool", [])]⟩, ⟨[], [("pool", "t1")]⟩) := by rfl

/-- C3 (amended): a single-target removal issues exactly one DELETE and
drops the id from the observed-state cache *unconditionally* — whatever
status the DELETE returns; a non-204 status is only logged.  (The claim's
`drops exactly when the DELETE succeeds` and `cache left unchanged on
failure` do not hold: line 234 rebinds the cache outside the status
check.) -/
theorem remove_target_unconditional_drop (rm : Remote)
    (name target tid : String) (s : EngineState) (ts : List Target)
    (hts : getT s name = some ts) :
    remove_target rm name target tid s =
      .ok (setT s name (ts.filter (fun t => !(t.id == tid))),
           ⟨[], [(name, tid)]⟩) :=
  remove_target_run rm name target tid s ts hts

/-- Witness for the amended C3: concrete failing remote, id dropped. -/
theorem remove_target_unconditional_drop_witness :
    getT (EngineState.mk ["p"] [("p", [⟨"h:1", 1, "t1"⟩])]) "p" =
      some [⟨"h:1", 1, "t1"⟩] ∧
    remove_target
      ⟨fun _ _ => 500, fun _ _ => 201, fun _ a => ⟨a, 100, "i"⟩,
       fun _ => 201, fun _ => 200⟩ "p" "h:1" "t1"
      (EngineState.mk ["p"] [("p", [⟨"h:1", 1, "t1"⟩])]) =
      .ok (setT (EngineState.mk ["p"] [("p", [⟨"h:1", 1, "t1"⟩])]) "p"
             (([⟨"h:1", 1, "t1"⟩] : List Target).filter
               (fun t => !(t.id == "t1"))),
           ⟨[], [("p", "t1")]⟩) :=
  ⟨rfl,
   remove_target_unconditional_drop
     ⟨fun _ _ => 500, fun _ _ => 201, fun _ a => ⟨a, 100, "i"⟩,
      fun _ => 201, fun _ => 200⟩ "p" "h:1" "t1"
     (EngineState.mk ["p"] [("p", [⟨"h:1", 1, "t1"⟩])])
     [⟨"h:1", 1, "t1"⟩] rfl⟩

theorem foldE_remove_target_pairs (rm : Remote) :
    ∀ (l : List (String × Target)) (s : EngineState),
    (∀ pr ∈ l, (getT s pr.1).isSome) →
    ∃ s', foldE (fun pr s' => remove_target rm pr.1 pr.2.target pr.2.id s')
        l s = .ok (s', ⟨[], l.map (fun pr => (pr.1, pr.2.id))⟩)
  | [], s, _ => ⟨s, rfl⟩
  | pr :: l, s, h => by
    obtain ⟨ts, hts⟩ := Option.isSome_iff_exists.1 (h pr (List.mem_cons_self _ _))
    have hstep := remove_target_run rm pr.1 pr.2.target pr.2.id s ts hts
    obtain ⟨s', htail⟩ :=
      foldE_remove_target_pairs rm l (setT s pr.1 (ts.filter (fun t => !(t.id == pr.2.id))))
        (fun pr' h' => getT_isSome_setT _ _ _ _ (h pr' (List.mem_cons_of_mem _ h')))
    exact ⟨s', by simp [foldE, hstep, htail, Trace.app]⟩

/-- C9: `remove_all` issues exactly one DELETE per cached target entry,
addressed by the entry's remote id, regardless of the entry's weight and
with no reference to any desired state; the sequence of DELETE calls is
the flattening of the cache and does not depend on the remote's answers,
so each deletion is attempted independently of the others' outcomes. -/
theorem remove_all_deletes_every_cached_entry (rm : Remote) (s : EngineState) :
    ∃ s', remove_all rm s = .ok (s', ⟨[], removeAllCalls s⟩) := by
  have h : ∀ pr ∈ s.targets.flatMap (fun pt => pt.2.map (fun t => (pt.1, t))),
      (getT s pr.1).isSome := by
    intro pr hpr
    rw [List.mem_flatMap] at hpr
    obtain ⟨pt, hpt, hmem⟩ := hpr
    rw [List.mem_map] at hmem
    obtain ⟨t, _, rfl⟩ := hmem
    exact pyGet_isSome_of_mem _ _ _ (by simpa using hpt)
  obtain ⟨s', hs'⟩ := foldE_remove_target_pairs rm _ s h
  refine ⟨s', ?_⟩
  rw [remove_all, hs']
  simp only [removeAllCalls, List.map_flatMap, List.map_map]
  rfl

theorem foldE_remove_target_ids (rm : Remote) (p a : String) :
    ∀ (ids : List String) (s : EngineState) (ts : List Target),
    getT s p = some ts →
    ∃ s', foldE (fun tid s' => remove_target rm p a tid s') ids s =
        .ok (s', ⟨[], ids.map (fun tid => (p, tid))⟩) ∧
      getT s' p = some (ts.filter (fun t => !(ids.elem t.id))) ∧
      (∀ q, q ≠ p → getT s' q = getT s q) ∧
      s'.upstreams = s.upstreams
  | [], s, ts, hts => ⟨s, rfl, by simpa using hts, fun _ _ => rfl, rfl⟩
  | tid :: ids, s, ts, hts => by
    have hstep := remove_target_run rm p a tid s ts hts
    obtain ⟨s', hfold, hcache, hoth, hups⟩ :=
      foldE_remove_target_ids rm p a ids
        (setT s p (ts.filter (fun t => !(t.id == tid))))
        (ts.filter (fun t => !(t.id == tid))) (getT_setT_self _ _ _)
    refine ⟨s', ?_, ?_, ?_, ?_⟩
    · simp [foldE, hstep, hfold, Trace.app]
    · rw [hcache, List.filter_filter]
      congr 1
      apply List.filter_congr
      intro t _
      simp only [List.elem_eq_mem, List.decide_mem_cons, Bool.not_or]
      exact Bool.and_comm _ _
    · intro q hq
      rw [hoth q hq, getT_setT_ne s p q _ (Ne.symm hq)]
    · rw [hups, setT_upstreams]

theorem elem_removeTargetsIds (ts : List Target) (a : String)
    (hid : (ts.map (fun t => t.id)).Nodup) (t : Target) (ht : t ∈ ts) :
    (removeTargetsIds ts a).elem t.id =
      (t.target == a && decide (0 < t.weight)) := by
  rw [List.elem_eq_mem]
  by_cases h : (t.target == a && decide (0 < t.weight)) = true
  · rw [h, decide_eq_true_iff]
    rw [removeTargetsIds, List.mem_dedup]
    exact List.mem_map_of_mem _ (List.mem_filter.2 ⟨ht, h⟩)
  · rw [Bool.not_eq_true] at h
    rw [h, decide_eq_false_iff_not]
    intro hmem
    rw [removeTargetsIds, List.mem_dedup] at hmem
    obtain ⟨t', ht', hidEq⟩ := List.mem_map.1 hmem
    have ht'mem := List.mem_of_mem_filter ht'
    have ht'pred := (List.mem_filter.1 ht').2
    have : t' = t :=
      List.inj_on_of_nodup_map hid ht'mem ht hidEq
    rw [this] at ht'pred
    rw [ht'pred] at h
    cases h

theorem remove_targets_run (rm : Remote) (p a : String) (s : EngineState)
    (ts : List Target) (hts : getT s p = some ts)
    (hid : (ts.map (fun t => t.id)).Nodup) :
    ∃ s' dels, remove_targets rm p a s = .ok (s', ⟨[], dels⟩) ∧
      getT s' p =
        some (ts.filter (fun t => !(t.target == a && decide (0 < t.weight)))) ∧
      (∀ q, q ≠ p → getT s' q = getT s q) ∧
      s'.upstreams = s.upstreams := by
  obtain ⟨s', hfold, hcache, hoth, hups⟩ :=
    foldE_remove_target_ids rm p a (removeTargetsIds ts a) s ts hts
  refine ⟨s', (removeTargetsIds ts a).map (fun tid => (p, tid)), ?_, ?_,
    hoth, hups⟩
  · unfold remove_targets
    rw [hts]
    exact hfold
  · rw [hcache]
    congr 1
    apply List.filter_congr
    intro t ht
    rw [elem_removeTargetsIds ts a hid t ht]

theorem foldE_remove_targets_run (rm : Remote) (p : String) :
    ∀ (L : List String) (s : EngineState) (ts : List Target),
    getT s p = some ts → (ts.map (fun t => t.id)).Nodup →
    ∃ s' dels,
      foldE (fun a s' => remove_targets rm p a s') L s = .ok (s', ⟨[], dels⟩) ∧
      getT s' p =
        some (ts.filter (fun t => !(L.elem t.target && decide (0 < t.weight)))) ∧
      (∀ q, q ≠ p → getT s' q = getT s q) ∧
      s'.upstreams = s.upstreams
  | [], s, ts, hts, _ => ⟨s, [], rfl, by simpa using hts, fun _ _ => rfl, rfl⟩
  | a :: L, s, ts, hts, hid => by
    obtain ⟨s1, d1, h1, hc1, ho1, hu1⟩ := remove_targets_run rm p a s ts hts hid
    have hid1 :
        ((ts.filter (fun t => !(t.target == a && decide (0 < t.weight)))).map
          (fun t => t.id)).Nodup :=
      List.Nodup.sublist ((List.filter_sublist ts).map _) hid
    obtain ⟨s2, d2, h2, hc2, ho2, hu2⟩ :=
      foldE_remove_targets_run rm p L s1 _ hc1 hid1
    refine ⟨s2, d1 ++ d2, ?_, ?_, ?_, ?_⟩
    · simp [foldE, h1, h2, Trace.app]
    · rw [hc2, List.filter_filter]
      congr 1
      apply List.filter_congr
      intro t _
      simp only [List.elem_eq_mem, List.decide_mem_cons]
      cases hx : (t.target == a) <;> cases hy : decide (t.target ∈ L) <;>
        cases hw : decide (0 < t.weight) <;> simp [hx, hy, hw]
    · intro q hq
      rw [ho2 q hq, ho1 q hq]
    · rw [hu2, hu1]

theorem add_target_post_ok (rm : Remote) (p b : String) (s : EngineState)
    (ts : List Target) (hup : s.upstreams.elem p = true)
    (hts : getT s p = some ts)
    (hnone : ∀ t ∈ ts, t.target ≠ b)
    (hst : (rm.postTargetStatus p b == 200 || rm.postTargetStatus p b == 201)
      = true) :
    add_target rm p b s =
      .ok (setT s p (ts ++ [rm.postTargetBody p b]), ⟨[(p, b)], []⟩) := by
  have hf : ts.filter (fun t => t.target == b && !(t.weight == 0)) = [] := by
    rw [List.filter_eq_nil_iff]
    intro t ht hcontra
    rw [Bool.and_eq_true] at hcontra
    exact hnone t ht (by simpa using hcontra.1)
  unfold add_target add_upstream
  rw [hup]
  simp only [if_true, hts, hf, List.length_nil]
  rw [if_pos hst]
  rfl

theorem foldE_add_target_run (rm : Remote) (p : String) :
    ∀ (L : List String) (s : EngineState) (ts : List Target),
    s.upstreams.elem p = true → getT s p = some ts → L.Nodup →
    (∀ b ∈ L, ∀ t ∈ ts, t.target ≠ b) →
    (∀ b ∈ L,
      (rm.postTargetStatus p b == 200 || rm.postTargetStatus p b == 201) = true) →
    (∀ b ∈ L, (rm.postTargetBody p b).target = b) →
    ∃ s', foldE (fun b s' => add_target rm p b s') L s =
        .ok (s', ⟨L.map (fun b => (p, b)), []⟩) ∧
      getT s' p = some (ts ++ L.map (rm.postTargetBody p)) ∧
      (∀ q, q ≠ p → getT s' q = getT s q) ∧
      s'.upstreams = s.upstreams
  | [], s, ts, _, hts, _, _, _, _ => ⟨s, rfl, by simpa using hts, fun _ _ => rfl, rfl⟩
  | b :: L, s, ts, hup, hts, hnd, hdis, hst, hecho => by
    have hstep := add_target_post_ok rm p b s ts hup hts
      (fun t ht => hdis b (List.mem_cons_self _ _) t ht)
      (hst b (List.mem_cons_self _ _))
    have hts1 : getT (setT s p (ts ++ [rm.postTargetBody p b])) p =
        some (ts ++ [rm.postTargetBody p b]) := getT_setT_self _ _ _
    have hup1 : (setT s p (ts ++ [rm.postTargetBody p b])).upstreams.elem p
        = true := by rw [setT_upstreams]; exact hup
    have hdis1 : ∀ c ∈ L, ∀ t ∈ ts ++ [rm.postTargetBody p b], t.target ≠ c := by
      intro c hc t ht
      rcases List.mem_append.1 ht with ht | ht
      · exact hdis c (List.mem_cons_of_mem _ hc) t ht
      · have hteq : t = rm.postTargetBody p b := by simpa using ht
        rw [hteq, hecho b (List.mem_cons_self _ _)]
        intro hbc
        exact (List.nodup_cons.1 hnd).1 (hbc ▸ hc)
    obtain ⟨s', hfold, hcache, hoth, hups⟩ :=
      foldE_add_target_run rm p L (setT s p (ts ++ [rm.postTargetBody p b]))
        (ts ++ [rm.postTargetBody p b]) hup1 hts1 (List.nodup_cons.1 hnd).2
        hdis1 (fun c hc => hst c (List.mem_cons_of_mem _ hc))
        (fun c hc => hecho c (List.mem_cons_of_mem _ hc))
    refine ⟨s', ?_, ?_, ?_, ?_⟩
    · simp [foldE, hstep, hfold, Trace.app]
    · rw [hcache]
      simp [List.append_assoc]
    · intro q hq
      rw [hoth q hq, getT_setT_ne s p q _ (Ne.symm hq)]
    · rw [hups, setT_upstreams]

theorem foldE_remove_targets_noop (rm : Remote) (p : String) :
    ∀ (L : List String) (s : EngineState) (c : List Target),
    getT s p = some c → (∀ a ∈ L, removeTargetsIds c a = []) →
    foldE (fun a s' => remove_targets rm p a s') L s = .ok (s, Trace.nil)
  | [], _, _, _, _ => rfl
  | a :: L, s, c, hts, hids => by
    have h1 : remove_targets rm p a s = .ok (s, Trace.nil) := by
      unfold remove_targets
      simp only [hts, hids a (List.mem_cons_self _ _)]
      rfl
    have h2 := foldE_remove_targets_noop rm p L s c hts
      (fun b hb => hids b (List.mem_cons_of_mem _ hb))
    simp [foldE, h1, h2, Trace.app, Trace.nil]

/-- C1: for a pool `p` present in the observed-state cache (hence also in
the startup upstream list, which `load` populates with exactly the cached
names) whose cached remote ids are distinct (they are assigned by the
control plane), if every remote call of the first `sync_upstream`
succeeds — DELETEs answer 204, and each POST for a to-add address answers
200/201 with a body echoing that address — then the first call completes
and a second call with the same desired set issues zero POST-target and
zero DELETE-target calls (its trace is empty). -/
theorem sync_upstream_idempotent (rm : Remote) (p : String) (D : List String)
    (s : EngineState) (ts0 : List Target)
    (hup : s.upstreams.elem p = true)
    (hts : getT s p = some ts0)
    (hid : (ts0.map (fun t => t.id)).Nodup)
    (hsucc : ∀ b ∈ syncToAdd (some ts0) D,
      (rm.postTargetStatus p b == 200 || rm.postTargetStatus p b == 201) = true)
    (hecho : ∀ b ∈ syncToAdd (some ts0) D, (rm.postTargetBody p b).target = b)
    (hdel : ∀ tid, rm.deleteStatus p tid = 204) :
    ∃ s1 tr1 s2, sync_upstream rm p D s = .ok (s1, tr1) ∧
      sync_upstream rm p D s1 = .ok (s2, Trace.nil) := by
  obtain ⟨sR, dels, hR, hRcache, _, hRups⟩ :=
    foldE_remove_targets_run rm p (syncToDelete (some ts0) D) s ts0 hts hid
  have hupR : sR.upstreams.elem p = true := by rw [hRups]; exact hup
  have hidF : ((ts0.filter (fun t =>
      !((syncToDelete (some ts0) D).elem t.target && decide (0 < t.weight)))).map
      (fun t => t.id)).Nodup :=
    List.Nodup.sublist ((List.filter_sublist ts0).map _) hid
  have hndAdd : (syncToAdd (some ts0) D).Nodup :=
    List.Nodup.filter _ (List.nodup_dedup D)
  have hdisAdd : ∀ b ∈ syncToAdd (some ts0) D,
      ∀ t ∈ ts0.filter (fun t =>
        !((syncToDelete (some ts0) D).elem t.target && decide (0 < t.weight))),
      t.target ≠ b := by
    intro b hb t htF hbt
    have htmem : t ∈ ts0 := List.mem_of_mem_filter htF
    have hbK : b ∈ syncInKong (some ts0) := by
      rw [syncInKong, List.mem_dedup]
      exact List.mem_map.2 ⟨t, htmem, hbt⟩
    rw [syncToAdd, List.mem_filter] at hb
    have := hb.2
    simp [List.elem_eq_mem, hbK] at this
  obtain ⟨s1, hA, hAcache, _, hAups⟩ :=
    foldE_add_target_run rm p (syncToAdd (some ts0) D) sR _ hupR hRcache
      hndAdd hdisAdd hsucc hecho
  refine ⟨s1, Trace.app ⟨[], dels⟩
    ⟨(syncToAdd (some ts0) D).map (fun b => (p, b)), []⟩, s1, ?_, ?_⟩
  · unfold sync_upstream
    simp only [hts, hR, hA]
  · -- second call: the cache now covers the desired set, and every cached
    -- entry at a to-delete address has weight 0, so both loops are empty.
    have hcov : ∀ b ∈ D.dedup,
        b ∈ ((ts0.filter (fun t =>
          !((syncToDelete (some ts0) D).elem t.target && decide (0 < t.weight)))
          ++ (syncToAdd (some ts0) D).map (rm.postTargetBody p)).map
          (fun t => t.target)) := by
      intro b hb
      by_cases hbK : b ∈ syncInKong (some ts0)
      · rw [syncInKong, List.mem_dedup] at hbK
        obtain ⟨t, ht0, hbt⟩ := List.mem_map.1 hbK
        have hnotDel : t.target ∉ syncToDelete (some ts0) D := by
          rw [hbt]
          intro hmem
          rw [syncToDelete, List.mem_filter] at hmem
          have := hmem.2
          simp [List.elem_eq_mem, hb] at this
        have htF : t ∈ ts0.filter (fun t =>
            !((syncToDelete (some ts0) D).elem t.target &&
              decide (0 < t.weight))) := by
          rw [List.mem_filter]
          refine ⟨ht0, ?_⟩
          simp [List.elem_eq_mem, hnotDel]
        exact List.mem_map.2 ⟨t, List.mem_append_left _ htF, hbt⟩
      · have hbAdd : b ∈ syncToAdd (some ts0) D := by
          rw [syncToAdd, List.mem_filter]
          exact ⟨hb, by simp [List.elem_eq_mem, hbK]⟩
        exact List.mem_map.2 ⟨rm.postTargetBody p b,
          List.mem_append_right _ (List.mem_map_of_mem _ hbAdd),
          hecho b hbAdd⟩
    have htoAdd2 : syncToAdd (getT s1 p) D = [] := by
      rw [hAcache, syncToAdd, List.filter_eq_nil_iff]
      intro b hb hcontra
      have hbk : b ∈ syncInKong (some
          (ts0.filter (fun t =>
            !((syncToDelete (some ts0) D).elem t.target && decide (0 < t.weight)))
          ++ (syncToAdd (some ts0) D).map (rm.postTargetBody p))) := by
        rw [syncInKong, List.mem_dedup]
        exact hcov b hb
      rw [List.elem_eq_mem, Bool.not_eq_true', decide_eq_false_iff_not]
        at hcontra
      exact hcontra hbk
    have hids2 : ∀ a ∈ syncToDelete (getT s1 p) D,
        removeTargetsIds (ts0.filter (fun t =>
          !((syncToDelete (some ts0) D).elem t.target && decide (0 < t.weight)))
          ++ (syncToAdd (some ts0) D).map (rm.postTargetBody p)) a = [] := by
      intro a ha
      rw [hAcache, syncToDelete, List.mem_filter] at ha
      have haD : a ∉ D.dedup := by
        have := ha.2
        simp only [List.elem_eq_mem, Bool.not_eq_true] at this
        simpa using this
      rw [removeTargetsIds]
      have hfil : (ts0.filter (fun t =>
          !((syncToDelete (some ts0) D).elem t.target && decide (0 < t.weight)))
          ++ (syncToAdd (some ts0) D).map (rm.postTargetBody p)).filter
          (fun t => t.target == a && decide (0 < t.weight)) = [] := by
        rw [List.filter_eq_nil_iff]
        intro t htC hcontra
        rw [Bool.and_eq_true] at hcontra
        have hta : t.target = a := by simpa using hcontra.1
        have hw : (0 : Int) < t.weight := by simpa using hcontra.2
        rcases List.mem_append.1 htC with htF | htA
        · have ht0 : t ∈ ts0 := List.mem_of_mem_filter htF
          have hpred := (List.mem_filter.1 htF).2
          have haK0 : a ∈ syncInKong (some ts0) := by
            rw [syncInKong, List.mem_dedup]
            exact List.mem_map.2 ⟨t, ht0, hta⟩
          have hamem : a ∈ syncToDelete (some ts0) D := by
            rw [syncToDelete, List.mem_filter]
            exact ⟨haK0, by simp [List.elem_eq_mem, haD]⟩
          rw [hta] at hpred
          simp [List.elem_eq_mem, hamem, hw] at hpred
        · obtain ⟨b, hbAdd, hbt⟩ := List.mem_map.1 htA
          have hbb : t.target = b := by rw [← hbt, hecho b hbAdd]
          have hbD : b ∈ D.dedup := List.mem_of_mem_filter hbAdd
          rw [hbb] at hta
          exact haD (hta ▸ hbD)
      rw [hfil]
      rfl
    have hnoop := foldE_remove_targets_noop rm p (syncToDelete (getT s1 p) D)
      s1 _ hAcache hids2
    unfold sync_upstream
    simp only [hnoop, htoAdd2]
    rfl

/-- Witness for C1 at a concrete cache and desired set (one live entry to
delete, one address to add, all-success remote). -/
theorem sync_upstream_idempotent_witness :
    getT ⟨["p"], [("p", [⟨"h:1", 1, "x"⟩])]⟩ "p" = some [⟨"h:1", 1, "x"⟩] ∧
    ∃ s1 tr1 s2,
      sync_upstream oracleOk "p" ["h:2"] ⟨["p"], [("p", [⟨"h:1", 1, "x"⟩])]⟩ =
        .ok (s1, tr1) ∧
      sync_upstream oracleOk "p" ["h:2"] s1 = .ok (s2, Trace.nil) :=
  ⟨rfl,
   sync_upstream_idempotent oracleOk "p" ["h:2"]
     ⟨["p"], [("p", [⟨"h:1", 1, "x"⟩])]⟩ [⟨"h:1", 1, "x"⟩]
     rfl rfl (by decide) (by decide) (by decide) (fun _ => rfl)⟩

/-- C2 counterexample: the cached pool holds a single weight-0 entry at
address `h:1` and the desired set is exactly that address.  The claim says
`syncPool` includes the address in its to-add set; but `in_kong` (line
84) collects the addresses of *all* cached entries regardless of weight,
so `to_add` is empty and the whole `sync_upstream` call issues no POST at
all — the zero-weight entry does block the re-add at the sync level. -/
theorem zero_weight_blocks_readd_cex :
    syncToAdd (some [⟨"h:1", 0, "x"⟩]) ["h:1"] = [] ∧
    sync_upstream oracleOk "p" ["h:1"]
        ⟨["p"], [("p", [⟨"h:1", 0, "x"⟩])]⟩ =
      .ok (⟨["p"], [("p", [⟨"h:1", 0, "x"⟩])]⟩, Trace.nil) :=
  ⟨rfl, rfl⟩

/-- C2 (amended): zero-weight entries are indeed never selected for
deletion (`remove_targets` collects only `weight > 0` ids) and never block
the POST inside `addTarget` (its filter requires `weight != 0`); but
`syncPool`'s observed address set counts them, so an address whose cached
entries all have weight 0 is *excluded* from the to-add set rather than
included. -/
theorem zero_weight_exclusion_semantics (rm : Remote) (p a : String)
    (s : EngineState) (ts : List Target) (D : List String)
    (hup : s.upstreams.elem p = true)
    (hts : getT s p = some ts)
    (hzero : ∀ t ∈ ts, t.target = a → t.weight = 0) :
    removeTargetsIds ts a = [] ∧
    (∃ s', add_target rm p a s = .ok (s', ⟨[(p, a)], []⟩)) ∧
    ((∃ t ∈ ts, t.target = a) → a ∉ syncToAdd (some ts) D) := by
  refine ⟨?_, ?_, ?_⟩
  · have hf : ts.filter (fun t => t.target == a && decide (0 < t.weight)) = [] := by
      rw [List.filter_eq_nil_iff]
      intro t ht hcontra
      rw [Bool.and_eq_true] at hcontra
      have hta : t.target = a := by simpa using hcontra.1
      have hw : (0 : Int) < t.weight := by simpa using hcontra.2
      rw [hzero t ht hta] at hw
      exact lt_irrefl 0 hw
    rw [removeTargetsIds, hf]
    rfl
  · have hf : ts.filter (fun t => t.target == a && !(t.weight == 0)) = [] := by
      rw [List.filter_eq_nil_iff]
      intro t ht hcontra
      rw [Bool.and_eq_true] at hcontra
      have hta : t.target = a := by simpa using hcontra.1
      have hw : ¬(t.weight = 0) := by simpa using hcontra.2
      exact hw (hzero t ht hta)
    unfold add_target add_upstream
    rw [hup]
    simp only [if_true, hts, hf, List.length_nil]
    by_cases hst : (rm.postTargetStatus p a == 200 || rm.postTargetStatus p a == 201) = true
    · rw [if_pos hst]
      exact ⟨_, rfl⟩
    · rw [if_neg hst]
      exact ⟨_, rfl⟩
  · rintro ⟨t, ht, hta⟩ hmem
    rw [syncToAdd, List.mem_filter] at hmem
    have hin : a ∈ syncInKong (some ts) := by
      rw [syncInKong, List.mem_dedup]
      exact List.mem_map.2 ⟨t, ht, hta⟩
    rw [List.elem_eq_mem] at hmem
    have := hmem.2
    simp [hin] at this

/-- Witness for the amended C2 at a concrete zero-weight cache. -/
theorem zero_weight_exclusion_semantics_witness :
    (∀ t ∈ ([⟨"h:1", 0, "x"⟩] : List Target), t.target = "h:1" → t.weight = 0) ∧
    (removeTargetsIds [⟨"h:1", 0, "x"⟩] "h:1" = [] ∧
     (∃ s', add_target oracleOk "p" "h:1" ⟨["p"], [("p", [⟨"h:1", 0, "x"⟩])]⟩ =
        .ok (s', ⟨[("p", "h:1")], []⟩)) ∧
     ((∃ t ∈ ([⟨"h:1", 0, "x"⟩] : List Target), t.target = "h:1") →
       "h:1" ∉ syncToAdd (some [⟨"h:1", 0, "x"⟩]) ["h:1"])) :=
  ⟨by decide,
   zero_weight_exclusion_semantics oracleOk "p" "h:1"
     ⟨["p"], [("p", [⟨"h:1", 0, "x"⟩])]⟩ [⟨"h:1", 0, "x"⟩] ["h:1"]
     rfl rfl (by decide)⟩

/-- C5 counterexample: two cases where the desired route document differs
from the stored one — a *changed* common field (`uris` `/x` to `/y`) and
an *added* field — yet `sync_apis` issues no PATCH in either: the source
tests for the string `'$update'` among the keys of jsondiff's explicit
diff, but those keys are `Symbol` objects that never equal the string, so
the claim's "for any change a PATCH is issued" fails at these inputs. -/
theorem sync_apis_changed_field_no_patch_cex :
    sync_apis [("r", [("name", "a"), ("uris", "/x")])]
      [("r", [("name", "a"), ("uris", "/y")])] = ([], []) ∧
    sync_apis [("r", [("name", "a")])]
      [("r", [("name", "a"), ("uris", "/x")])] = ([], []) := ⟨rfl, rfl⟩

theorem jsondiffWantsUpdate_eq_false (cur d : ApiDoc)
    (h : pyGet d "$update" = none) : jsondiffWantsUpdate cur d = false := by
  rw [jsondiffWantsUpdate]
  by_cases h1 : docEq cur d = true
  · rw [if_pos h1]
  · rw [if_neg h1]
    by_cases h2 : (docCommonKeys cur d).isEmpty = true
    · rw [if_pos h2, h]
    · rw [if_neg h2]

theorem sync_apis_foldl_patches (remoteApis : List (String × ApiDoc)) :
    ∀ (apis : List (String × ApiDoc)) (acc : List String × List String),
    (∀ pr ∈ apis, pyGet pr.2 "$update" = none) →
    (apis.foldl (syncApisStep remoteApis) acc).1 = acc.1
  | [], _, _ => rfl
  | nd :: apis, acc, h => by
    rw [List.foldl_cons]
    have hstep : (syncApisStep remoteApis acc nd).1 = acc.1 := by
      rw [syncApisStep]
      cases hr : pyGet remoteApis nd.1 with
      | none => rfl
      | some cur =>
        simp only [jsondiffWantsUpdate_eq_false cur nd.2
          (h nd (List.mem_cons_self _ _)), Bool.false_eq_true, if_false]
    rw [sync_apis_foldl_patches remoteApis apis _
      (fun pr hpr => h pr (List.mem_cons_of_mem _ hpr)), hstep]

/-- C5 (amended): for desired route documents without a literal `$update`
field (every real route document), `sync_apis` issues *no* PATCH at all —
an unchanged stored document issues none, as the claim says, but so does
any changed one, because the `'$update' in differences` test compares the
string against jsondiff's Symbol keys and never succeeds.  The only
remote write for such routes is the PUT creating names that are missing
remotely. -/
theorem sync_apis_never_patches (remoteApis apis : List (String × ApiDoc))
    (hupd : ∀ pr ∈ apis, pyGet pr.2 "$update" = none) :
    (sync_apis remoteApis apis).1 = [] := by
  rw [sync_apis]
  exact sync_apis_foldl_patches remoteApis apis ([], []) hupd

/-- Witness for the amended C5: a desired document that changes the common
field `uris` still produces an empty PATCH list. -/
theorem sync_apis_never_patches_witness :
    (∀ pr ∈ ([("r", [("name", "a"), ("uris", "/y")])] :
        List (String × ApiDoc)), pyGet pr.2 "$update" = none) ∧
    (sync_apis [("r", [("name", "a"), ("uris", "/x")])]
      [("r", [("name", "a"), ("uris", "/y")])]).1 = [] :=
  ⟨by decide,
   sync_apis_never_patches [("r", [("name", "a"), ("uris", "/x")])]
     [("r", [("name", "a"), ("uris", "/y")])] (by decide)⟩

/-- C7: per-port environment lookup.  The port-specific key
`<PREFIX>_<port>_<SUFFIX>` wins when present; when it is absent, the
port-agnostic key `<PREFIX>_<SUFFIX>` applies exactly when it is present
and the container has exactly one TCP port; otherwise nothing is
returned. -/
theorem env_value_for_port_resolution (c : Container)
    (prefix_ postfix_ port : String) :
    (∀ v, pyGet (get_environment_of_container c)
        (portKey prefix_ postfix_ port) = some v →
      get_environment_value_for_port c prefix_ postfix_ port = some v) ∧
    (pyGet (get_environment_of_container c)
        (portKey prefix_ postfix_ port) = none →
      pyMem (get_environment_of_container c) (fullKey prefix_ postfix_) = true →
      (get_all_tcp_ports c).length = 1 →
      get_environment_value_for_port c prefix_ postfix_ port =
        pyGet (get_environment_of_container c) (fullKey prefix_ postfix_)) ∧
    (pyGet (get_environment_of_container c)
        (portKey prefix_ postfix_ port) = none →
      (pyMem (get_environment_of_container c) (fullKey prefix_ postfix_)
          = false ∨
        (get_all_tcp_ports c).length ≠ 1) →
      get_environment_value_for_port c prefix_ postfix_ port = none) := by
  refine ⟨?_, ?_, ?_⟩
  · intro v hv
    simp [get_environment_value_for_port, hv]
  · intro h0 hmem hlen
    simp [get_environment_value_for_port, h0, hmem, hlen]
  · intro h0 hor
    rcases hor with hm | hl
    · simp [get_environment_value_for_port, h0, hm]
    · simp [get_environment_value_for_port, h0, hl]

/-- Witness for C7: the port-specific key wins on a concrete container,
and a container with no matching keys yields nothing. -/
theorem env_value_for_port_resolution_witness :
    pyGet (get_environment_of_container
        (Container.mk ["SERVICE_80_NAME=foo"] [("80/tcp", some "8080")]))
      (portKey "SERVICE" "NAME" "80/tcp") = some "foo" ∧
    get_environment_value_for_port
      (Container.mk ["SERVICE_80_NAME=foo"] [("80/tcp", some "8080")])
      "SERVICE" "NAME" "80/tcp" = some "foo" ∧
    get_environment_value_for_port (Container.mk [] [("80/tcp", some "8080")])
      "SERVICE" "NAME" "80/tcp" = none :=
  ⟨by rfl,
   (env_value_for_port_resolution
     (Container.mk ["SERVICE_80_NAME=foo"] [("80/tcp", some "8080")])
     "SERVICE" "NAME" "80/tcp").1 "foo" (by rfl),
   (env_value_for_port_resolution (Container.mk [] [("80/tcp", some "8080")])
     "SERVICE" "NAME" "80/tcp").2.2 (by rfl) (Or.inl (by rfl))⟩

/-- C8: the claim (and the spec) say a duplicate pool name from a second
port is dropped with a warning rather than an error, other ports
unaffected.  In the source the duplicate branch executes
`log.warn(..., port, container['ID'])` (lines 417-420), and evaluating
`container['ID']` subscripts a docker-py `Container` model object, which
raises TypeError — the extraction crashes instead of warning.  The intent
of the code is plainly warn-and-drop (the message reads "ignoring
duplicate service name" and the docstring says duplicates "are not
allowed"), so the claim is right and the code has a latent bug.  First
conjunct: the duplicate input raises; second: a duplicate-free container
extracts normally. -/
theorem upstream_targets_duplicate_crashes :
    get_upstream_targets ⟨"h1", ".svc"⟩
      (Container.mk ["SERVICE_80_NAME=foo", "SERVICE_81_NAME=foo"]
        [("80/tcp", some "8080"), ("81/tcp", some "8081")]) =
      .error .typeError ∧
    get_upstream_targets ⟨"h1", ".svc"⟩
      (Container.mk ["SERVICE_80_NAME=foo"] [("80/tcp", some "8080")]) =
      .ok [("foo.svc", "h1:8080")] := ⟨rfl, rfl⟩


/-- C6 counterexample: a stream whose first line is not valid JSON.
`json.loads` raises ValueError, nothing in `process_events` catches it,
and the loop terminates before the following `container start` event is
ever read — a single event's failure does end the loop, not only a
stream-read failure or deliberate shutdown. -/
theorem process_events_malformed_terminates_cex :
    process_events ⟨oracleOk, fun _ => none, [], fun _ => none, []⟩
      ⟨"h1", ".svc"⟩ ⟨[], []⟩
      [.malformed, .ev "container" "start" "c1"] = .error .valueError := by
  rfl

/-- C6 (amended): the only reconciliation failure the loop tolerates is a
missing container on a start event (the `except NotFound` in
`container_started`) — remote-call failures surface as logged non-2xx
statuses and do not raise.  But a malformed event line raises ValueError
out of the loop, and an uncaught reconciliation error — here `add_target`
on a pool absent from the startup cache — likewise terminates the loop. -/
theorem process_events_failure_semantics
    (w : World) (cfg : Config) (s : EngineState) (rest : List DockerLine)
    (cid cid2 : String) (c : Container) (u t : String)
    (hnone : w.dockerGet cid = none)
    (hsome : w.dockerGet cid2 = some c)
    (hext : get_upstream_targets cfg c = .ok [(u, t)])
    (hu1 : s.upstreams.elem u = false)
    (hu2 : getT s u = none) :
    process_events w cfg s (.malformed :: rest) = .error .valueError ∧
    process_events w cfg s (.ev "container" "start" cid :: rest) =
      process_events w cfg s rest ∧
    ∃ e, process_events w cfg s (.ev "container" "start" cid2 :: rest) =
      .error e := by
  refine ⟨rfl, ?_, ?_⟩
  · have hcs : container_started w cfg cid s = .ok s := by
      rw [container_started, hnone]
    simp [process_events, hcs]
  · obtain ⟨e, he⟩ := add_target_error_of_unknown_pool w.rm u t s hu1 hu2
    refine ⟨e, ?_⟩
    have hcs : container_started w cfg cid2 s = .error e := by
      simp only [container_started, hsome, hext, foldE, he]
    simp [process_events, hcs]

/-- Witness for the amended C6 at a concrete world: container `c1` is
missing, container `c2` extracts a pool absent from the empty cache. -/
theorem process_events_failure_semantics_witness :
    (⟨[], []⟩ : EngineState).upstreams.elem "foo.svc" = false ∧
    getT ⟨[], []⟩ "foo.svc" = none ∧
    (process_events
        ⟨oracleOk,
         fun i => if i == "c2" then
           some (Container.mk ["SERVICE_NAME=foo"] [("80/tcp", some "8080")])
           else none,
         [], fun _ => none, []⟩
        ⟨"h1", ".svc"⟩ ⟨[], []⟩ [.malformed] = .error .valueError ∧
     process_events
        ⟨oracleOk,
         fun i => if i == "c2" then
           some (Container.mk ["SERVICE_NAME=foo"] [("80/tcp", some "8080")])
           else none,
         [], fun _ => none, []⟩
        ⟨"h1", ".svc"⟩ ⟨[], []⟩ [.ev "container" "start" "c1"] =
       process_events
        ⟨oracleOk,
         fun i => if i == "c2" then
           some (Container.mk ["SERVICE_NAME=foo"] [("80/tcp", some "8080")])
           else none,
         [], fun _ => none, []⟩
        ⟨"h1", ".svc"⟩ ⟨[], []⟩ [] ∧
     ∃ e, process_events
        ⟨oracleOk,
         fun i => if i == "c2" then
           some (Container.mk ["SERVICE_NAME=foo"] [("80/tcp", some "8080")])
           else none,
         [], fun _ => none, []⟩
        ⟨"h1", ".svc"⟩ ⟨[], []⟩ [.ev "container" "start" "c2"] = .error e) :=
  ⟨rfl, rfl,
   process_events_failure_semantics
     ⟨oracleOk,
      fun i => if i == "c2" then
        some (Container.mk ["SERVICE_NAME=foo"] [("80/tcp", some "8080")])
        else none,
      [], fun _ => none, []⟩
     ⟨"h1", ".svc"⟩ ⟨[], []⟩ [] "c1" "c2"
     (Container.mk ["SERVICE_NAME=foo"] [("80/tcp", some "8080")])
     "foo.svc" "h1:8080" rfl rfl (by rfl) rfl rfl⟩

/-- C4: the endpoint gating exists syntactically (`loadTargetsUrl` picks
`/targets/active` under the flag and `/targets` otherwise), but the flag
is never obtained from the control plane: no code path calls
`get_kong_version`, the constructor fixes the flag to `False`, and
`get_kong_version` itself iterates the *characters* of the version string,
so for any dotted version — `0.9.1` below 0.11, or even the default
`0.11.0` — `int('.')` raises ValueError.  `load_targets` therefore always
uses `/targets`, even against a pre-0.11 control plane. -/
theorem kong_version_gating_dead :
    get_kong_version (some "0.9.1") = .error .valueError ∧
    get_kong_version none = .error .valueError ∧
    initBelowV011 = false ∧
    (∀ admin name, loadTargetsUrl initBelowV011 admin name =
      admin ++ "/upstreams/" ++ name ++ "/targets") ∧
    (∀ admin name, loadTargetsUrl true admin name =
      admin ++ "/upstreams/" ++ name ++ "/targets/active") :=
  ⟨by rfl, by rfl, rfl, fun admin name => rfl, fun admin name => rfl⟩
